import Mathlib

/-!
Verification of `oauth2-nodejs` (`src/index.js`), a small OAuth2
authorization-code helper. The library exports four operations
(`CreateRedirect`, `AuthenticateByCode`, `AuthenticateByToken`,
`GetUserInfo`) built over three leaf utilities: a query-string builder
(`buildQueryString`), a reply interpreter (`interpretReply`), and an HTTP
requester (`request`).

The embedding below translates each of those functions into Lean:

* JavaScript values produced by `JSON.parse` are modelled by `JsonValue`
  (numbers are modelled as integers: the fractional/exponent part of the
  JSON number grammar is not needed by any reply field the library reads,
  and `jsonParse` simply rejects such bodies, so theorems taking
  `jsonParse s = some v` as a hypothesis never see them).
* `JSON.parse` is modelled by `jsonParse`, a fuel-based functional parser
  of the JSON grammar; a body on which `JSON.parse` throws corresponds to
  `jsonParse` returning `none`.
* JavaScript property access `reply[k]` is modelled by `jsGet`: it raises
  (`Except.error`) when the base value is `null` (a TypeError in JS) and
  returns `none` (JS `undefined`) when the base is a primitive, an array
  without such a key, or a string.
* JavaScript truthiness is modelled by `truthy` / `optTruthy`.
* The node `https` request is modelled as a pure value: the options object
  and written body become an `OutboundRequest` record, and the response
  handling becomes a function from the list of response chunks to the
  argument delivered to the caller's continuation (`CallbackArg`); the
  `res.on end` handler fires once, so the model's handler function is
  applied exactly once per response.
-/

namespace OAuth2

/-- A JavaScript value as produced by `JSON.parse` (numbers restricted to
integers; see the header comment). -/
inductive JsonValue where
  | null
  | bool (b : Bool)
  | num (n : Int)
  | str (s : String)
  | arr (elems : List JsonValue)
  | obj (fields : List (String × JsonValue))

/-- Double quote character. -/
def quoteChar : Char := Char.ofNat 34

/-- Backslash character. -/
def backslashChar : Char := Char.ofNat 92

/-- JSON whitespace test, as accepted by `JSON.parse`. -/
def jsonWs (c : Char) : Bool :=
  c == ' ' || c == Char.ofNat 9 || c == Char.ofNat 10 || c == Char.ofNat 13

/-- Drop leading JSON whitespace. -/
def dropWs : List Char → List Char
  | [] => []
  | c :: cs => if jsonWs c then dropWs cs else c :: cs

/-- Split off a maximal run of leading decimal digits. -/
def spanDigits : List Char → List Char × List Char
  | [] => ([], [])
  | c :: cs =>
    if c.isDigit then
      let p := spanDigits cs
      (c :: p.1, p.2)
    else ([], c :: cs)

/-- Value of a decimal digit string. -/
def digitsVal (ds : List Char) : Nat :=
  ds.foldl (fun a c => a * 10 + (c.toNat - 48)) 0

/-- Value of one hexadecimal digit, if it is one. -/
def hexDigitVal (c : Char) : Option Nat :=
  if c.isDigit then some (c.toNat - 48)
  else if 97 ≤ c.toNat && c.toNat ≤ 102 then some (c.toNat - 87)
  else if 65 ≤ c.toNat && c.toNat ≤ 70 then some (c.toNat - 55)
  else none

/-- The character denoted by a single-character JSON string escape. -/
def jsonEscape (e : Char) : Option Char :=
  if e == quoteChar then some quoteChar
  else if e == backslashChar then some backslashChar
  else if e == '/' then some '/'
  else if e == 'b' then some (Char.ofNat 8)
  else if e == 'f' then some (Char.ofNat 12)
  else if e == 'n' then some (Char.ofNat 10)
  else if e == 'r' then some (Char.ofNat 13)
  else if e == 't' then some (Char.ofNat 9)
  else none

/-- Body of a JSON string, read after its opening quote. Returns the decoded
characters and the characters after the closing quote. Fueled (one unit per
consumed source character). -/
def jsonStringBody (fuel : Nat) (cs : List Char) : Option (List Char × List Char) :=
  match fuel, cs with
  | 0, _ => none
  | _, [] => none
  | fuel + 1, c :: cs =>
    if c == quoteChar then some ([], cs)
    else if c == backslashChar then
      match cs with
      | [] => none
      | e :: cs2 =>
        if e == 'u' then
          match cs2 with
          | h1 :: h2 :: h3 :: h4 :: cs3 =>
            match hexDigitVal h1, hexDigitVal h2, hexDigitVal h3, hexDigitVal h4 with
            | some a, some b, some c2, some d =>
              match jsonStringBody fuel cs3 with
              | some (out, rest) =>
                some (Char.ofNat (((a * 16 + b) * 16 + c2) * 16 + d) :: out, rest)
              | none => none
            | _, _, _, _ => none
          | _ => none
        else
          match jsonEscape e with
          | some ch =>
            match jsonStringBody fuel cs2 with
            | some (out, rest) => some (ch :: out, rest)
            | none => none
          | none => none
    else if c.toNat < 32 then none
    else
      match jsonStringBody fuel cs with
      | some (out, rest) => some (c :: out, rest)
      | none => none

/-- A JSON number in the integer subset of the grammar: an optional minus
sign and digits with no redundant leading zero; bodies whose number carries
a fraction or exponent part are rejected (see the header comment). -/
def jsonNumber (cs : List Char) : Option (Int × List Char) :=
  let signed : Bool × List Char :=
    match cs with
    | c :: r => if c == '-' then (true, r) else (false, cs)
    | [] => (false, [])
  match spanDigits signed.2 with
  | ([], _) => none
  | (d :: ds, rest) =>
    if d == '0' && !ds.isEmpty then none
    else
      match rest with
      | r :: _ => if r == '.' || r == 'e' || r == 'E' then none else
          some ((if signed.1 then -(digitsVal (d :: ds) : Int) else (digitsVal (d :: ds) : Int)), rest)
      | [] =>
        some ((if signed.1 then -(digitsVal (d :: ds) : Int) else (digitsVal (d :: ds) : Int)), [])

mutual

/-- One JSON value (leading whitespace allowed), fueled. -/
def jsonValueP (fuel : Nat) (cs : List Char) : Option (JsonValue × List Char) :=
  match fuel with
  | 0 => none
  | fuel + 1 =>
    match dropWs cs with
    | [] => none
    | c :: rest =>
      if c == '{' then
        match dropWs rest with
        | [] => none
        | c2 :: rest2 =>
          if c2 == '}' then some (.obj [], rest2)
          else
            match jsonMembersP fuel (c2 :: rest2) with
            | some (fields, rest3) => some (.obj fields, rest3)
            | none => none
      else if c == '[' then
        match dropWs rest with
        | [] => none
        | c2 :: rest2 =>
          if c2 == ']' then some (.arr [], rest2)
          else
            match jsonElementsP fuel (c2 :: rest2) with
            | some (vs, rest3) => some (.arr vs, rest3)
            | none => none
      else if c == quoteChar then
        match jsonStringBody fuel rest with
        | some (out, rest2) => some (.str ⟨out⟩, rest2)
        | none => none
      else if c == 't' then
        match rest with
        | 'r' :: 'u' :: 'e' :: rest2 => some (.bool true, rest2)
        | _ => none
      else if c == 'f' then
        match rest with
        | 'a' :: 'l' :: 's' :: 'e' :: rest2 => some (.bool false, rest2)
        | _ => none
      else if c == 'n' then
        match rest with
        | 'u' :: 'l' :: 'l' :: rest2 => some (.null, rest2)
        | _ => none
      else
        match jsonNumber (c :: rest) with
        | some (n, rest2) => some (.num n, rest2)
        | none => none

/-- One-or-more JSON object members up to the closing brace, fueled. -/
def jsonMembersP (fuel : Nat) (cs : List Char) :
    Option (List (String × JsonValue) × List Char) :=
  match fuel with
  | 0 => none
  | fuel + 1 =>
    match dropWs cs with
    | [] => none
    | c :: rest =>
      if c == quoteChar then
        match jsonStringBody fuel rest with
        | none => none
        | some (keyCs, rest2) =>
          match dropWs rest2 with
          | [] => none
          | c2 :: rest3 =>
            if c2 == ':' then
              match jsonValueP fuel rest3 with
              | none => none
              | some (v, rest4) =>
                match dropWs rest4 with
                | [] => none
                | c3 :: rest5 =>
                  if c3 == ',' then
                    match jsonMembersP fuel rest5 with
                    | some (fields, rest6) => some ((⟨keyCs⟩, v) :: fields, rest6)
                    | none => none
                  else if c3 == '}' then some ([(⟨keyCs⟩, v)], rest5)
                  else none
            else none
      else none

/-- One-or-more JSON array elements up to the closing bracket, fueled. -/
def jsonElementsP (fuel : Nat) (cs : List Char) :
    Option (List JsonValue × List Char) :=
  match fuel with
  | 0 => none
  | fuel + 1 =>
    match jsonValueP fuel cs with
    | none => none
    | some (v, rest) =>
      match dropWs rest with
      | [] => none
      | c :: rest2 =>
        if c == ',' then
          match jsonElementsP fuel rest2 with
          | some (vs, rest3) => some (v :: vs, rest3)
          | none => none
        else if c == ']' then some ([v], rest2)
        else none

end

/-- Model of `JSON.parse`: `some v` when parsing succeeds with value `v`,
`none` when `JSON.parse` throws. The fuel is generous: every two nested
calls consume at least one source character. -/
def jsonParse (s : String) : Option JsonValue :=
  match jsonValueP (4 * s.length + 8) s.data with
  | some (v, rest) =>
    match dropWs rest with
    | [] => some v
    | _ => none
  | none => none

/-- The value bound to the local `reply` after the interpreter's
`try JSON.parse catch ignore` step: the parsed value on success, the
original body string when `JSON.parse` threw. -/
inductive ParsedReply where
  | raw (s : String)
  | parsed (v : JsonValue)

/-- Outcome of the try/catch in `interpretReply` on a body string. -/
def tryParseReply (s : String) : ParsedReply :=
  match jsonParse s with
  | some v => .parsed v
  | none => .raw s

/-- Last-wins lookup of a key in a parsed object's member list (later
duplicate keys shadow earlier ones, as in a JavaScript object built by
`JSON.parse`). -/
def objLookup (fields : List (String × JsonValue)) (key : String) : Option JsonValue :=
  fields.foldl (fun acc p => if p.1 = key then some p.2 else acc) none

/-- JavaScript truthiness of a `JsonValue`. -/
def truthy : JsonValue → Bool
  | .null => false
  | .bool b => b
  | .num n => n != 0
  | .str s => !s.isEmpty
  | .arr _ => true
  | .obj _ => true

/-- JavaScript truthiness where `none` stands for `undefined`. -/
def truthyOpt : Option JsonValue → Bool
  | none => false
  | some v => truthy v

/-- JavaScript bracket access `reply[key]` on the post-try/catch value:
a TypeError (`Except.error`) when the base is `null`; the member value or
`undefined` (`none`) on an object; `undefined` on strings, numbers,
booleans and arrays for the keys this library reads. -/
def jsGet : ParsedReply → String → Except Unit (Option JsonValue)
  | .raw _, _ => .ok none
  | .parsed .null, _ => .error ()
  | .parsed (.obj fields), key => .ok (objLookup fields key)
  | .parsed _, _ => .ok none

/-- The interpreter's normalized result. A field is `none` when the source
left it at its initial `null`. -/
structure TokenResponse where
  accessToken : Option JsonValue
  refreshToken : Option JsonValue
  expires : Option JsonValue

/-- `interpretReply` after the try/catch, performing the five conditional
assignments in source order; a TypeError at any bracket access aborts
(only possible when the parsed value is `null`, in which case the first
access already throws). -/
def interpretReplyCore (reply : ParsedReply) : Except Unit TokenResponse :=
  match jsGet reply ("access_token") with
  | .error e => .error e
  | .ok v1 =>
    match jsGet reply ("refresh_token") with
    | .error e => .error e
    | .ok v2 =>
      match jsGet reply ("state") with
      | .error e => .error e
      | .ok v3 =>
        match jsGet reply ("expires") with
        | .error e => .error e
        | .ok v4 =>
          match jsGet reply ("expires_in") with
          | .error e => .error e
          | .ok v5 =>
            .ok
              { accessToken := if truthyOpt v1 then v1 else none
                refreshToken :=
                  if truthyOpt v3 then v3 else if truthyOpt v2 then v2 else none
                expires :=
                  if truthyOpt v5 then v5 else if truthyOpt v4 then v4 else none }

/-- `interpretReply` on a raw body string. -/
def interpretReply (body : String) : Except Unit TokenResponse :=
  interpretReplyCore (tryParseReply body)

/-- UTF-8 byte values of one character. -/
def utf8Bytes (c : Char) : List Nat :=
  let n := c.toNat
  if n < 128 then [n]
  else if n < 2048 then [192 + n / 64, 128 + n % 64]
  else if n < 65536 then [224 + n / 4096, 128 + (n / 64) % 64, 128 + n % 64]
  else [240 + n / 262144, 128 + (n / 4096) % 64, 128 + (n / 64) % 64, 128 + n % 64]

/-- `Buffer.byteLength` of a string (UTF-8 byte count). -/
def byteLength (s : String) : Nat :=
  (s.data.map (fun c => (utf8Bytes c).length)).foldl (· + ·) 0

/-- Uppercase hexadecimal digit. -/
def hexUpper (n : Nat) : Char :=
  if n < 10 then Char.ofNat (48 + n) else Char.ofNat (55 + n)

/-- Percent-encoding of one byte value. -/
def percentByte (b : Nat) : List Char :=
  ['%', hexUpper (b / 16), hexUpper (b % 16)]

/-- Characters `encodeURIComponent` leaves unescaped: ASCII letters and
digits and `- _ . ! ~ * ' ( )` (39 is the apostrophe). -/
def uriUnreserved (c : Char) : Bool :=
  c.isAlpha || c.isDigit || c == '-' || c == '_' || c == '.' || c == '!' ||
    c == '~' || c == '*' || c.toNat == 39 || c == '(' || c == ')'

/-- JavaScript `encodeURIComponent`: every character outside the unreserved
set is replaced by the percent-encoding of its UTF-8 bytes. Node's
`querystring.escape` uses the same escape set, so it is also the model of
the escaping applied by `querystring.stringify`. -/
def encodeURIComponent (s : String) : String :=
  ⟨(s.data.map (fun c =>
      if uriUnreserved c then [c] else (utf8Bytes c).foldr (fun b a => percentByte b ++ a) [])).foldr
    (· ++ ·) []⟩

/-- Node `querystring.stringify` on a flat string-valued object in insertion
order: `escape(key)=escape(value)` joined with ampersands. -/
def qsStringify (ps : List (String × String)) : String :=
  String.intercalate ("&") (ps.map (fun p => encodeURIComponent p.1 ++ "=" ++ encodeURIComponent p.2))

/-- `buildQueryString`: first overwrites every value of the parameters
object with its `encodeURIComponent`, then applies
`querystring.stringify`, whose own escaping encodes the values a second
time. -/
def buildQueryString (parameters : List (String × String)) : String :=
  qsStringify (parameters.map (fun p => (p.1, encodeURIComponent p.2)))

/-- `buildQueryString` with the mutation of its argument made explicit:
returns the parameters object as the call leaves it together with the
query string. Used for the frame/no-mutation claim. -/
def buildQueryStringM (parameters : List (String × String)) :
    List (String × String) × String :=
  let m := parameters.map (fun p => (p.1, encodeURIComponent p.2))
  (m, qsStringify m)

/-- An OAuth2 provider descriptor. `none` models an absent (`undefined`)
`scope` or `state`; `offline` is its truthiness. -/
structure Provider where
  clientId : String
  clientSecret : String
  authUri : String
  accessTokenUri : String
  userInfoUri : String
  scope : Option String
  state : Option String
  offline : Bool

/-- Truthiness of an optional string field (`undefined` and the empty
string are falsy). -/
def optTruthy : Option String → Bool
  | none => false
  | some s => !s.isEmpty

/-- The characters of the scheme prefix the requester strips. -/
def httpsPrefix : List Char := ['h', 't', 't', 'p', 's', ':', '/', '/']

/-- Remove the first occurrence of `pat` from `s` (JavaScript
`s.replace(pat, empty)` with a string pattern). -/
def removeFirst (s pat : List Char) : List Char :=
  match s with
  | [] => []
  | c :: cs => if pat.isPrefixOf (c :: cs) then (c :: cs).drop pat.length
      else c :: removeFirst cs pat

/-- JavaScript `uri.indexOf` of the slash character. -/
def slashIndex : List Char → Option Nat
  | [] => none
  | c :: cs => if c == '/' then some 0 else (slashIndex cs).map (· + 1)

/-- The outbound request the requester hands to `https.request`, plus the
body it writes. `writtenBody` is `none` for non-POST methods: the payload
is then used nowhere. -/
structure OutboundRequest where
  host : String
  path : String
  port : Nat
  method : String
  contentType : String
  contentLength : Nat
  writtenBody : Option String

/-- What reaches the caller's continuation when the response ends:
the raw accumulated body, or the interpreter's outcome (whose
`Except.error` case is the TypeError of `interpretReply` propagating out
of the `end` handler instead of a continuation call). -/
inductive CallbackArg where
  | raw (body : String)
  | interpreted (result : Except Unit TokenResponse)

/-- Accumulation `body += chunk` over the response's data events. -/
def accumulate (chunks : List String) : String :=
  chunks.foldl (fun a d => a ++ d) ("")

/-- The `request` helper: strips the scheme, splits host and path at the
first slash (JavaScript `substring` with `indexOf` returning -1 yields an
empty host and the whole string as path), fixes port 443, sets
`content-length` to the payload's byte length for POST and 0 otherwise,
and writes the payload only for POST. The second component maps the
response chunks to the continuation's argument, applied once when the
response ends. -/
def request (uri : String) (method : String) (payload : String)
    (interpretBody : Bool) : OutboundRequest × (List String → CallbackArg) :=
  let m := if method.isEmpty then "POST" else method
  let u := removeFirst uri.data httpsPrefix
  let hostPath : String × String :=
    match slashIndex u with
    | some i => (⟨u.take i⟩, ⟨u.drop i⟩)
    | none => ("", ⟨u⟩)
  ({ host := hostPath.1
     path := hostPath.2
     port := 443
     method := m
     contentType := "application/x-www-form-urlencoded"
     contentLength := if m = "POST" then byteLength payload else 0
     writtenBody := if m = "POST" then some payload else none },
   fun chunks =>
     if interpretBody then .interpreted (interpretReply (accumulate chunks))
     else .raw (accumulate chunks))

/-- Default of the optional `locale` argument: `en` when omitted or falsy. -/
def localeOrDefault (locale : Option String) : String :=
  match locale with
  | none => "en"
  | some l => if l.isEmpty then "en" else l

/-- The parameters object `CreateRedirect` builds, in insertion order:
the five required entries, then `access_type`, `scope`, `state`, each
appended only when the corresponding descriptor field is truthy. -/
def redirectParams (provider : Provider) (redirectUri : String)
    (locale : Option String) : List (String × String) :=
  let ps := [("client_id", provider.clientId), ("display", "page"),
    ("locale", localeOrDefault locale), ("redirect_uri", redirectUri),
    ("response_type", "code")]
  let ps := if provider.offline then ps ++ [("access_type", "offline")] else ps
  let ps := if optTruthy provider.scope then ps ++ [("scope", provider.scope.getD (""))] else ps
  if optTruthy provider.state then ps ++ [("state", provider.state.getD (""))] else ps

/-- `exports.CreateRedirect`. -/
def CreateRedirect (provider : Provider) (redirectUri : String)
    (locale : Option String) : String :=
  provider.authUri ++ "?" ++ buildQueryString (redirectParams provider redirectUri locale)

/-- The parameters object `AuthenticateByCode` builds, in insertion order. -/
def authCodeParams (provider : Provider) (redirectUri code : String) :
    List (String × String) :=
  let ps := [("client_id", provider.clientId), ("client_secret", provider.clientSecret),
    ("redirect_uri", redirectUri), ("code", code), ("grant_type", "authorization_code")]
  let ps := if optTruthy provider.scope then ps ++ [("scope", provider.scope.getD (""))] else ps
  if optTruthy provider.state then ps ++ [("state", provider.state.getD (""))] else ps

/-- `exports.AuthenticateByCode`: a POST of the encoded parameters to
`accessTokenUri`, with the body run through the interpreter. -/
def AuthenticateByCode (provider : Provider) (redirectUri code : String) :
    OutboundRequest × (List String → CallbackArg) :=
  request provider.accessTokenUri ("POST")
    (buildQueryString (authCodeParams provider redirectUri code)) true

/-- The parameters object `AuthenticateByToken` builds, in insertion order. -/
def refreshParams (provider : Provider) (refreshToken : String) :
    List (String × String) :=
  let ps := [("client_id", provider.clientId), ("client_secret", provider.clientSecret),
    ("refresh_token", refreshToken), ("grant_type", "refresh_token")]
  let ps := if optTruthy provider.scope then ps ++ [("scope", provider.scope.getD (""))] else ps
  if optTruthy provider.state then ps ++ [("state", provider.state.getD (""))] else ps

/-- `exports.AuthenticateByToken`: a POST of the encoded parameters to
`accessTokenUri`, with the body run through the interpreter. -/
def AuthenticateByToken (provider : Provider) (refreshToken : String) :
    OutboundRequest × (List String → CallbackArg) :=
  request provider.accessTokenUri ("POST")
    (buildQueryString (refreshParams provider refreshToken)) true

/-- `exports.GetUserInfo`: a GET aimed at `userInfoUri`; the encoded
payload is handed to `request`, and the `interpretBody` argument is
omitted in the source, hence falsy. -/
def GetUserInfo (provider : Provider) (accessToken : String) :
    OutboundRequest × (List String → CallbackArg) :=
  request provider.userInfoUri ("GET")
    (buildQueryString [("access_token", accessToken)]) false

/-! ## Helper lemmas -/

/-- A provider descriptor with only the required fields set, used as a
concrete instance in several witnesses. -/
def exampleProvider : Provider :=
  { clientId := "cid", clientSecret := "sec",
    authUri := "https://auth.example.com/auth",
    accessTokenUri := "https://api.example.com/token",
    userInfoUri := "https://api.example.com/user",
    scope := none, state := none, offline := false }

/-- On a parsed object, the interpreter never throws and each result field
is the value of the later-checked source field when truthy, else the
earlier one when truthy, else absent. -/
theorem interpretReplyCore_obj (fs : List (String × JsonValue)) :
    interpretReplyCore (.parsed (.obj fs)) =
      Except.ok
        { accessToken :=
            if truthyOpt (objLookup fs ("access_token")) then objLookup fs ("access_token")
            else none
          refreshToken :=
            if truthyOpt (objLookup fs ("state")) then objLookup fs ("state")
            else if truthyOpt (objLookup fs ("refresh_token")) then objLookup fs ("refresh_token")
            else none
          expires :=
            if truthyOpt (objLookup fs ("expires_in")) then objLookup fs ("expires_in")
            else if truthyOpt (objLookup fs ("expires")) then objLookup fs ("expires")
            else none } := rfl

/-! ## Claims about the reply interpreter -/

/-- C4: a body on which `JSON.parse` throws leaves `reply` a string, every
bracket access yields `undefined`, and the interpreter returns the
all-absent result without raising. -/
theorem interpretReply_unparseable_all_absent (s : String)
    (h : jsonParse s = none) :
    interpretReply s = Except.ok ⟨none, none, none⟩ := by
  unfold interpretReply tryParseReply
  rw [h]
  rfl

/-- Witness for C4 at the body `not json`. -/
theorem interpretReply_unparseable_all_absent_witness :
    jsonParse ("not json") = none ∧
    interpretReply ("not json") = Except.ok ⟨none, none, none⟩ :=
  ⟨rfl, interpretReply_unparseable_all_absent ("not json") rfl⟩

/-- C1 (counterexample to the claim as stated): the body whose object has
both a `refresh_token` field and a `state` field, but with the falsy empty
string as the `state` value, yields `refreshToken = "R"`, not the `state`
value. -/
theorem state_overwrite_counterexample :
    jsonParse ("\x7b\x22refresh_token\x22:\x22R\x22,\x22state\x22:\x22\x22\x7d") =
      some (JsonValue.obj [("refresh_token", JsonValue.str ("R")), ("state", JsonValue.str (""))]) ∧
    interpretReply ("\x7b\x22refresh_token\x22:\x22R\x22,\x22state\x22:\x22\x22\x7d") =
      Except.ok ⟨none, some (JsonValue.str ("R")), none⟩ ∧
    JsonValue.str ("R") ≠ JsonValue.str ("") :=
  ⟨rfl, rfl, fun h => absurd (JsonValue.str.inj h) (by decide)⟩

/-- C1 (amended): whenever the body parses to an object carrying both a
`refresh_token` field and a `state` field whose value is truthy, the
result's `refreshToken` is the `state` value (the `state` check runs after
the `refresh_token` check and overwrites it). -/
theorem interpretReply_state_overwrites_refreshToken (s : String)
    (fs : List (String × JsonValue)) (rv sv : JsonValue)
    (hp : jsonParse s = some (JsonValue.obj fs))
    (_hr : objLookup fs ("refresh_token") = some rv)
    (hs : objLookup fs ("state") = some sv)
    (ht : truthy sv = true) :
    ∃ r : TokenResponse, interpretReply s = Except.ok r ∧ r.refreshToken = some sv := by
  unfold interpretReply tryParseReply
  rw [hp, interpretReplyCore_obj]
  refine ⟨_, rfl, ?_⟩
  simp [hs, truthyOpt, ht]

/-- Witness for the amended C1 at the claim's own example body. -/
theorem interpretReply_state_overwrites_refreshToken_witness :
    ∃ r : TokenResponse,
      interpretReply ("\x7b\x22refresh_token\x22:\x22R\x22,\x22state\x22:\x22S\x22\x7d") =
        Except.ok r ∧
      r.refreshToken = some (JsonValue.str ("S")) :=
  interpretReply_state_overwrites_refreshToken
    ("\x7b\x22refresh_token\x22:\x22R\x22,\x22state\x22:\x22S\x22\x7d")
    [("refresh_token", JsonValue.str ("R")), ("state", JsonValue.str ("S"))]
    (JsonValue.str ("R")) (JsonValue.str ("S")) rfl rfl rfl rfl

/-- C5 (counterexample to the claim as stated): with `expires: 60` and the
falsy `expires_in: 0`, the final `expires` is 60, not the `expires_in`
value. -/
theorem expires_in_overwrite_counterexample :
    jsonParse ("\x7b\x22expires\x22:60,\x22expires_in\x22:0\x7d") =
      some (JsonValue.obj [("expires", JsonValue.num 60), ("expires_in", JsonValue.num 0)]) ∧
    interpretReply ("\x7b\x22expires\x22:60,\x22expires_in\x22:0\x7d") =
      Except.ok ⟨none, none, some (JsonValue.num 60)⟩ ∧
    JsonValue.num 60 ≠ JsonValue.num 0 :=
  ⟨rfl, rfl, fun h => absurd (JsonValue.num.inj h) (by decide)⟩

/-- C5 (amended): on the body with `access_token: "A"` and
`expires_in: 120` the result is exactly as the claim states; and whenever
the body parses to an object with both an `expires` field and an
`expires_in` field whose value is truthy, the final `expires` comes from
`expires_in` (the later-checked assignment overwrites the earlier one). -/
theorem interpretReply_expires_in_overwrites :
    interpretReply ("\x7b\x22access_token\x22:\x22A\x22,\x22expires_in\x22:120\x7d") =
      Except.ok ⟨some (JsonValue.str ("A")), none, some (JsonValue.num 120)⟩ ∧
    ∀ (s : String) (fs : List (String × JsonValue)) (ev iv : JsonValue),
      jsonParse s = some (JsonValue.obj fs) →
      objLookup fs ("expires") = some ev →
      objLookup fs ("expires_in") = some iv →
      truthy iv = true →
      ∃ r : TokenResponse, interpretReply s = Except.ok r ∧ r.expires = some iv := by
  refine ⟨rfl, ?_⟩
  intro s fs ev iv hp _he hi ht
  unfold interpretReply tryParseReply
  rw [hp, interpretReplyCore_obj]
  refine ⟨_, rfl, ?_⟩
  simp [hi, truthyOpt, ht]

/-- Witness for the amended C5 with both fields present and truthy. -/
theorem interpretReply_expires_in_overwrites_witness :
    ∃ r : TokenResponse,
      interpretReply ("\x7b\x22expires\x22:60,\x22expires_in\x22:90\x7d") = Except.ok r ∧
      r.expires = some (JsonValue.num 90) :=
  interpretReply_expires_in_overwrites.2
    ("\x7b\x22expires\x22:60,\x22expires_in\x22:90\x7d")
    [("expires", JsonValue.num 60), ("expires_in", JsonValue.num 90)]
    (JsonValue.num 60) (JsonValue.num 90) rfl rfl rfl rfl

/-- C10: the body `null` parses to the JSON null value, and the
interpreter's first bracket access on it raises (a TypeError in the
source, `Except.error` here) instead of returning the all-absent result;
the graceful degradation covers only bodies whose post-parse value
supports property access. -/
theorem interpretReply_null_body_throws :
    jsonParse ("null") = some JsonValue.null ∧
    interpretReply ("null") = Except.error () :=
  ⟨rfl, rfl⟩

/-! ## Claims about the query encoder and the user-info fetcher -/

/-- C3: the query builder encodes each value twice — `encodeURIComponent`
turns the space of `x y` into `%20`, and `querystring.stringify` then
escapes the `%` again, so the emitted pair is `a=x%2520y`, a doubly
escaped space rather than the single form encoding `a=x%20y` the claim
requires. -/
theorem buildQueryString_double_encodes :
    encodeURIComponent ("x y") = "x%20y" ∧
    buildQueryString [("a", "x y"), ("b", "1")] = "a=x%2520y&b=1" ∧
    ("a=x%2520y&b=1" : String) ≠ "a=x%20y&b=1" :=
  ⟨rfl, rfl, by decide⟩

/-- C2: on a GET, `request` builds the path purely from the URI — the
payload `access_token=T` is neither appended to the path as a query
string nor written as a body, so it is dropped entirely; the continuation
does receive the accumulated response body raw (uninterpreted). -/
theorem getUserInfo_discards_payload :
    buildQueryString [("access_token", "T")] = "access_token=T" ∧
    (GetUserInfo exampleProvider ("T")).1.method = "GET" ∧
    (GetUserInfo exampleProvider ("T")).1.host = "api.example.com" ∧
    (GetUserInfo exampleProvider ("T")).1.path = "/user" ∧
    ("/user" : String) ≠ "/user?access_token=T" ∧
    (GetUserInfo exampleProvider ("T")).1.writtenBody = none ∧
    (GetUserInfo exampleProvider ("T")).1.contentLength = 0 ∧
    (GetUserInfo exampleProvider ("T")).2 [("BO"), ("DY")] = CallbackArg.raw ("BODY") :=
  ⟨rfl, rfl, rfl, rfl, by decide, rfl, rfl, rfl⟩

/-! ## Claims about the redirect builder -/

/-- C6: with `offline`, `scope` and `state` absent or falsy, the parameter
mapping is exactly the five required entries and the output is the
authorization URI, a question mark, and their encoding. -/
theorem createRedirect_required_only (p : Provider) (redirectUri : String)
    (locale : Option String) (hoff : p.offline = false)
    (hsc : optTruthy p.scope = false) (hst : optTruthy p.state = false) :
    redirectParams p redirectUri locale =
      [("client_id", p.clientId), ("display", "page"),
       ("locale", localeOrDefault locale), ("redirect_uri", redirectUri),
       ("response_type", "code")] ∧
    CreateRedirect p redirectUri locale =
      p.authUri ++ "?" ++ buildQueryString
        [("client_id", p.clientId), ("display", "page"),
         ("locale", localeOrDefault locale), ("redirect_uri", redirectUri),
         ("response_type", "code")] := by
  have hps : redirectParams p redirectUri locale =
      [("client_id", p.clientId), ("display", "page"),
       ("locale", localeOrDefault locale), ("redirect_uri", redirectUri),
       ("response_type", "code")] := by
    unfold redirectParams
    rw [hoff, hsc, hst]
    simp
  exact ⟨hps, by unfold CreateRedirect; rw [hps]⟩

/-- Witness for C6 on a minimal descriptor. -/
theorem createRedirect_required_only_witness :
    redirectParams exampleProvider ("https://cb.example.com/g") none =
      [("client_id", "cid"), ("display", "page"), ("locale", "en"),
       ("redirect_uri", "https://cb.example.com/g"), ("response_type", "code")] ∧
    CreateRedirect exampleProvider ("https://cb.example.com/g") none =
      "https://auth.example.com/auth" ++ "?" ++ buildQueryString
        [("client_id", "cid"), ("display", "page"), ("locale", "en"),
         ("redirect_uri", "https://cb.example.com/g"), ("response_type", "code")] :=
  createRedirect_required_only exampleProvider ("https://cb.example.com/g") none rfl rfl rfl

/-- The `locale` entry of the parameter mapping always holds the defaulted
locale, whatever the optional descriptor fields append after it. -/
theorem lookup_locale_redirectParams (p : Provider) (redirectUri : String)
    (locale : Option String) :
    List.lookup ("locale") (redirectParams p redirectUri locale) =
      some (localeOrDefault locale) := by
  unfold redirectParams
  cases p.offline <;> cases optTruthy p.scope <;> cases optTruthy p.state <;>
    simp [List.lookup]

/-- C8: the `locale` parameter is `en` when the argument is omitted or is
the falsy empty string, and any nonempty explicit locale is used
instead. -/
theorem createRedirect_locale_behavior (p : Provider) (redirectUri : String) :
    List.lookup ("locale") (redirectParams p redirectUri none) = some ("en") ∧
    List.lookup ("locale") (redirectParams p redirectUri (some (""))) = some ("en") ∧
    ∀ l : String, l.isEmpty = false →
      List.lookup ("locale") (redirectParams p redirectUri (some l)) = some l := by
  refine ⟨lookup_locale_redirectParams p redirectUri none, ?_, ?_⟩
  · simpa [localeOrDefault] using lookup_locale_redirectParams p redirectUri (some (""))
  · intro l hl
    have h := lookup_locale_redirectParams p redirectUri (some l)
    simpa [localeOrDefault, hl] using h

/-- Witness for C8: the default and an explicit override. -/
theorem createRedirect_locale_behavior_witness :
    List.lookup ("locale") (redirectParams exampleProvider ("https://cb.example.com/g") none) =
      some ("en") ∧
    List.lookup ("locale")
        (redirectParams exampleProvider ("https://cb.example.com/g") (some ("nb"))) =
      some ("nb") :=
  ⟨(createRedirect_locale_behavior exampleProvider ("https://cb.example.com/g")).1,
   (createRedirect_locale_behavior exampleProvider ("https://cb.example.com/g")).2.2 ("nb") rfl⟩

/-! ## Claims about the code exchanger -/

/-- Stripping the scheme from a URI that starts with it leaves the rest. -/
theorem removeFirst_https (rest : List Char) :
    removeFirst (httpsPrefix ++ rest) httpsPrefix = rest := by
  simp [httpsPrefix, removeFirst, List.isPrefixOf]

/-- The first slash of `host ++ "/" ++ rest` with a slash-free host sits at
index `host.length`. -/
theorem slashIndex_split (host rest : List Char) (h : ∀ c ∈ host, ¬ c = '/') :
    slashIndex (host ++ '/' :: rest) = some host.length := by
  induction host with
  | nil => rfl
  | cons c cs ih =>
    have hc : (c == '/') = false := by
      have := h c (List.mem_cons_self c cs)
      simp [this]
    have hcs := ih (fun x hx => h x (List.mem_cons_of_mem c hx))
    simp [slashIndex, hc, hcs]

/-- `request` aimed at `https://host/rest` addresses exactly that host and
that path. -/
theorem request_host_path (uri method payload : String) (ib : Bool)
    (hostCs restCs : List Char)
    (huri : uri.data = httpsPrefix ++ hostCs ++ '/' :: restCs)
    (hhost : ∀ c ∈ hostCs, ¬ c = '/') :
    (request uri method payload ib).1.host = ⟨hostCs⟩ ∧
    (request uri method payload ib).1.path = ⟨'/' :: restCs⟩ := by
  have h1 : removeFirst uri.data httpsPrefix = hostCs ++ '/' :: restCs := by
    rw [huri]; exact removeFirst_https _
  have h2 := slashIndex_split hostCs restCs hhost
  constructor <;> simp [request, h1, h2, List.take_left, List.drop_left]

/-- C7: `AuthenticateByCode` issues one POST whose host and path are split
from `accessTokenUri`, whose written form body is the encoding of a
parameter mapping containing `grant_type=authorization_code`, the given
code and the client secret, and whose continuation receives the
interpreter's result of the accumulated response body (delivered once,
when the response ends). -/
theorem authenticateByCode_request (p : Provider) (redirectUri code : String)
    (hostCs restCs : List Char)
    (huri : p.accessTokenUri.data = httpsPrefix ++ hostCs ++ '/' :: restCs)
    (hhost : ∀ c ∈ hostCs, ¬ c = '/') :
    (AuthenticateByCode p redirectUri code).1.method = "POST" ∧
    (AuthenticateByCode p redirectUri code).1.host = ⟨hostCs⟩ ∧
    (AuthenticateByCode p redirectUri code).1.path = ⟨'/' :: restCs⟩ ∧
    (AuthenticateByCode p redirectUri code).1.port = 443 ∧
    (AuthenticateByCode p redirectUri code).1.writtenBody =
      some (buildQueryString (authCodeParams p redirectUri code)) ∧
    ("grant_type", "authorization_code") ∈ authCodeParams p redirectUri code ∧
    ("code", code) ∈ authCodeParams p redirectUri code ∧
    ("client_secret", p.clientSecret) ∈ authCodeParams p redirectUri code ∧
    ∀ chunks : List String,
      (AuthenticateByCode p redirectUri code).2 chunks =
        CallbackArg.interpreted (interpretReply (accumulate chunks)) := by
  have hm : ("grant_type", "authorization_code") ∈ authCodeParams p redirectUri code ∧
      ("code", code) ∈ authCodeParams p redirectUri code ∧
      ("client_secret", p.clientSecret) ∈ authCodeParams p redirectUri code := by
    unfold authCodeParams
    refine ⟨?_, ?_, ?_⟩ <;> split <;> split <;> simp
  have hsplit := request_host_path p.accessTokenUri ("POST")
    (buildQueryString (authCodeParams p redirectUri code)) true hostCs restCs huri hhost
  exact ⟨rfl, hsplit.1, hsplit.2, rfl, rfl, hm.1, hm.2.1, hm.2.2, fun _ => rfl⟩

/-- Witness for C7 at a concrete descriptor, code and response body. -/
theorem authenticateByCode_request_witness :
    (AuthenticateByCode exampleProvider ("https://cb.example.com/g") ("CODE123")).1.method =
      "POST" ∧
    (AuthenticateByCode exampleProvider ("https://cb.example.com/g") ("CODE123")).1.host =
      "api.example.com" ∧
    (AuthenticateByCode exampleProvider ("https://cb.example.com/g") ("CODE123")).1.path =
      "/token" ∧
    (AuthenticateByCode exampleProvider ("https://cb.example.com/g") ("CODE123")).1.port = 443 ∧
    (AuthenticateByCode exampleProvider ("https://cb.example.com/g") ("CODE123")).1.writtenBody =
      some (buildQueryString
        (authCodeParams exampleProvider ("https://cb.example.com/g") ("CODE123"))) ∧
    ("grant_type", "authorization_code") ∈
      authCodeParams exampleProvider ("https://cb.example.com/g") ("CODE123") ∧
    ("code", "CODE123") ∈
      authCodeParams exampleProvider ("https://cb.example.com/g") ("CODE123") ∧
    ("client_secret", "sec") ∈
      authCodeParams exampleProvider ("https://cb.example.com/g") ("CODE123") ∧
    ∀ chunks : List String,
      (AuthenticateByCode exampleProvider ("https://cb.example.com/g") ("CODE123")).2 chunks =
        CallbackArg.interpreted (interpretReply (accumulate chunks)) :=
  authenticateByCode_request exampleProvider ("https://cb.example.com/g") ("CODE123")
    ['a', 'p', 'i', '.', 'e', 'x', 'a', 'm', 'p', 'l', 'e', '.', 'c', 'o', 'm']
    ['t', 'o', 'k', 'e', 'n'] rfl (by decide)

/-! ## The frame claim -/

/-- The heap reachable during one call: the caller's provider descriptor
and the call's own parameters object (the only object the source
mutates, inside `buildQueryString`). -/
structure CallState where
  provider : Provider
  params : List (String × String)

/-- `CreateRedirect` with the final heap made explicit. -/
def CreateRedirectS (provider : Provider) (redirectUri : String)
    (locale : Option String) : CallState × String :=
  let ps := redirectParams provider redirectUri locale
  let m := buildQueryStringM ps
  (⟨provider, m.1⟩, provider.authUri ++ "?" ++ m.2)

/-- `AuthenticateByCode` with the final heap made explicit. -/
def AuthenticateByCodeS (provider : Provider) (redirectUri code : String) :
    CallState × (OutboundRequest × (List String → CallbackArg)) :=
  let ps := authCodeParams provider redirectUri code
  let m := buildQueryStringM ps
  (⟨provider, m.1⟩, request provider.accessTokenUri ("POST") m.2 true)

/-- `AuthenticateByToken` with the final heap made explicit. -/
def AuthenticateByTokenS (provider : Provider) (refreshToken : String) :
    CallState × (OutboundRequest × (List String → CallbackArg)) :=
  let ps := refreshParams provider refreshToken
  let m := buildQueryStringM ps
  (⟨provider, m.1⟩, request provider.accessTokenUri ("POST") m.2 true)

/-- `GetUserInfo` with the final heap made explicit. -/
def GetUserInfoS (provider : Provider) (accessToken : String) :
    CallState × (OutboundRequest × (List String → CallbackArg)) :=
  let ps := [("access_token", accessToken)]
  let m := buildQueryStringM ps
  (⟨provider, m.1⟩, request provider.userInfoUri ("GET") m.2 false)

/-- C9: each of the four public operations leaves the provider descriptor
exactly as it was (the one in-place update in the source hits the call's
own parameters object, never the descriptor), and each operation's result
agrees with the pure functions above — every derived value is a function
of the call's arguments alone. -/
theorem provider_never_mutated (p : Provider)
    (redirectUri code refreshToken accessToken : String) (locale : Option String) :
    (CreateRedirectS p redirectUri locale).1.provider = p ∧
    (AuthenticateByCodeS p redirectUri code).1.provider = p ∧
    (AuthenticateByTokenS p refreshToken).1.provider = p ∧
    (GetUserInfoS p accessToken).1.provider = p ∧
    (CreateRedirectS p redirectUri locale).2 = CreateRedirect p redirectUri locale ∧
    (AuthenticateByCodeS p redirectUri code).2 = AuthenticateByCode p redirectUri code ∧
    (AuthenticateByTokenS p refreshToken).2 = AuthenticateByToken p refreshToken ∧
    (GetUserInfoS p accessToken).2 = GetUserInfo p accessToken :=
  ⟨rfl, rfl, rfl, rfl, rfl, rfl, rfl, rfl⟩

end OAuth2
